import Mathlib

set_option linter.unusedVariables false

/-! Shallow embedding of the dspy-skills repository: the SKILL.md parser
(`parser.py`), the skill manager (`manager.py`), the sandboxed script
executor (`security.py`) and the agent's bash tool (`agent.py`), with
theorems checking the specification's claims against it.

Filesystem reads, the YAML library and process spawning are abstracted as
explicit oracles/parameters; what a spawned process does is an explicit
argument where a claim needs it.

All string primitives are written structurally over `List Char` so that
every definition evaluates inside the kernel (`rfl`/`decide`). -/

/-! ## Python string primitives -/

/-- The characters Python's `str.strip()` / `str.split()` treat as
whitespace (ASCII part, which is all the repository ever feeds them). -/
def pyIsSpace (c : Char) : Bool :=
  c == ' ' || c == '\t' || c == '\n' || c == '\r' || c == '\x0b' || c == '\x0c'

/-- Python `s.strip()`. -/
def pyStrip (s : String) : String :=
  ⟨((s.data.dropWhile pyIsSpace).reverse.dropWhile pyIsSpace).reverse⟩

/-- Helper for `pySplitWs`: the accumulator holds the current word reversed. -/
def pySplitWsAux : List Char → List Char → List String
  | [], acc => if acc.isEmpty then [] else [String.mk acc.reverse]
  | c :: rest, acc =>
    if pyIsSpace c then
      if acc.isEmpty then pySplitWsAux rest []
      else String.mk acc.reverse :: pySplitWsAux rest []
    else pySplitWsAux rest (c :: acc)

/-- Python `s.split()` with no separator: words between whitespace runs,
never an empty part. -/
def pySplitWs (s : String) : List String := pySplitWsAux s.data []

/-- Whether `sub` occurs as a contiguous run inside `l`. -/
def isSubrun (sub : List Char) : List Char → Bool
  | [] => sub.isEmpty
  | c :: rest => sub.isPrefixOf (c :: rest) || isSubrun sub rest

/-- Python `sub in s`: substring containment. -/
def strContains (s sub : String) : Bool := isSubrun sub.data s.data

/-- Python `s.startswith(p)`. -/
def strStartsWith (s p : String) : Bool := p.data.isPrefixOf s.data

/-- Python `s1 + s2` over many pieces: `sep.join(parts)`. -/
def strJoin (sep : String) : List String → String
  | [] => ""
  | [x] => x
  | x :: xs => x ++ sep ++ strJoin sep xs

/-- Python `s.lower()` (ASCII, which is all the code lowercases). -/
def strLower (s : String) : String := ⟨s.data.map Char.toLower⟩

/-- Python `s[n:]` for a nonnegative `n`. -/
def strDrop (s : String) (n : Nat) : String := ⟨s.data.drop n⟩

/-- Splitting on a separator `s0 :: stail`, all occurrences, keeping empty
parts — the semantics of Python `s.split(sep)` for a nonempty `sep`.
The accumulator holds the current part reversed; the fuel (at least the
input's length at the call site, every step consuming a character) keeps the
recursion structural so the kernel can evaluate it. -/
def splitSepAux (s0 : Char) (stail : List Char) :
    Nat → List Char → List Char → List (List Char)
  | _, [], acc => [acc.reverse]
  | 0, l, acc => [acc.reverse ++ l]
  | fuel + 1, c :: rest, acc =>
    if (s0 :: stail).isPrefixOf (c :: rest) then
      acc.reverse :: splitSepAux s0 stail fuel (rest.drop stail.length) []
    else
      splitSepAux s0 stail fuel rest (c :: acc)

/-- Python `s.split(sep)` for a nonempty separator. -/
def pySplit (s sep : String) : List String :=
  match sep.data with
  | [] => [s]
  | s0 :: stail => (splitSepAux s0 stail s.data.length s.data []).map String.mk

/-- Python `s.split(sep, 2)`: at most two splits, the remainder kept whole. -/
def pySplitMax2 (s sep : String) : List String :=
  match pySplit s sep with
  | a :: b :: c :: rest => [a, b, strJoin sep (c :: rest)]
  | parts => parts

/-- `pathlib.PurePath.suffix` of a file name: the part from the last dot on,
empty when that dot is the first or last character or there is none. -/
def pySuffix (name : String) : String :=
  let cs := name.data
  match ((List.range cs.length).filter (fun i => cs.get? i == some '.')).getLast? with
  | some i => if 0 < i ∧ i < cs.length - 1 then String.mk (cs.drop i) else ""
  | none => ""

/-! ## Paths

An absolute POSIX path is its list of components; `resolve()` is modelled
lexically (the repository's security checks are about `..` traversal, and no
symlinks are modelled). -/

/-- An absolute filesystem path as its component list (`/a/b` = `["a","b"]`). -/
abbrev AbsPath := List String

/-- Resolve segments left to right: empty and `.` segments vanish, `..` pops
one component (staying at the root), as `Path.resolve()` does lexically. -/
def normSegs : AbsPath → List String → AbsPath
  | acc, [] => acc
  | acc, s :: rest =>
    if s = "" ∨ s = "." then normSegs acc rest
    else if s = ".." then normSegs acc.dropLast rest
    else normSegs (acc ++ [s]) rest

/-- `(base / filename).resolve()`: pathlib joining (an absolute `filename`
discards `base`) followed by lexical resolution. -/
def resolvePath (base : AbsPath) (filename : String) : AbsPath :=
  if strStartsWith filename "/" then normSegs [] (pySplit filename "/")
  else normSegs [] (base ++ pySplit filename "/")

/-- `str(path)` of an absolute path. -/
def pathStr (p : AbsPath) : String := "/" ++ strJoin "/" p

/-! ## Data model (`models.py`, `errors.py`) -/

/-- `SkillState` (models.py): the loading state of a skill. -/
inductive SkillState
  | DISCOVERED
  | ACTIVATED
deriving DecidableEq, Repr

/-- A parsed YAML value as `strictyaml` hands it back (`.data`): scalars are
strings, plus sequences and mappings with string keys. -/
inductive YamlVal
  | str (s : String)
  | seq (xs : List YamlVal)
  | map (kvs : List (String × YamlVal))

mutual

/-- Python `repr` of a YAML value, as `str()` renders non-string values
(string escaping inside `repr` is not modelled; no claim touches it). -/
def pyReprV : YamlVal → String
  | .str s => "'" ++ s ++ "'"
  | .seq xs => "[" ++ pyReprSeq xs ++ "]"
  | .map kvs => "\x7b" ++ pyReprMap kvs ++ "\x7d"

/-- The comma-joined items of a sequence `repr`. -/
def pyReprSeq : List YamlVal → String
  | [] => ""
  | [x] => pyReprV x
  | x :: xs => pyReprV x ++ ", " ++ pyReprSeq xs

/-- The comma-joined `'key': value` items of a mapping `repr`. -/
def pyReprMap : List (String × YamlVal) → String
  | [] => ""
  | [q] => "'" ++ q.1 ++ "': " ++ pyReprV q.2
  | q :: qs => "'" ++ q.1 ++ "': " ++ pyReprV q.2 ++ ", " ++ pyReprMap qs

end

/-- Python `str(v)` of a YAML value: a string is itself, anything else its
`repr`. -/
def pyStrV : YamlVal → String
  | .str s => s
  | v => pyReprV v

/-- The error taxonomy of `errors.py` (plus Python's built-in `ValueError`),
restricted to what the embedded operations raise; each constructor carries
what the corresponding exception renders into its message. -/
inductive SkillErr
  | parse (msg : String)
  | validation (msg : String)
  | skillNotFound (name : String) (available : List String)
  | resourceNotFound (skill_name resource_type filename : String)
  | execution (reason : String)
  | security (msg : String)
  | valueError (msg : String)
deriving DecidableEq, Repr

/-- `str(e)` of an embedded error, per the `__init__` of each class in
`errors.py` (for `ExecutionError` only the reason part is modelled). -/
def errMsg : SkillErr → String
  | .parse m => m
  | .validation m => m
  | .skillNotFound n avail =>
    "Skill '" ++ n ++ "' not found"
      ++ (if avail.isEmpty then "" else ". Available: " ++ strJoin ", " avail)
  | .resourceNotFound s t f => "Resource '" ++ f ++ "' not found in " ++ s ++ "/" ++ t ++ "/"
  | .execution r => r
  | .security m => m
  | .valueError m => m

/-- `LoadedSkill` (models.py). `metadata` is the coerced string-to-string
mapping as an insertion-ordered association list. -/
structure LoadedSkill where
  name : String
  description : String
  path : AbsPath
  state : SkillState := .DISCOVERED
  license : Option String := none
  compatibility : Option String := none
  allowed_tools : Option String := none
  metadata : List (String × String) := []
  instructions : Option String := none
deriving DecidableEq, Repr

/-- Python `dict.get` over an insertion-ordered association list. -/
def alookup {α : Type} (l : List (String × α)) (k : String) : Option α :=
  (l.find? (fun p => p.1 == k)).map (·.2)

/-! ## SKILL.md parsing (`parser.py`)

The `strictyaml.load` call is abstracted as a `yaml` argument
(`.error` = a `YAMLError`, `.ok` = the parsed `.data`). -/

/-- The coercion `parse_frontmatter` applies to a nested `metadata` mapping:
all of its keys and values become strings. -/
def coerceMetadata (md : List (String × YamlVal)) : List (String × YamlVal) :=
  md.map (fun p =>
    if p.1 == "metadata" then
      match p.2 with
      | .map kvs => (p.1, .map (kvs.map (fun q => (q.1, .str (pyStrV q.2)))))
      | v => (p.1, v)
    else p)

/-- `parse_frontmatter` (parser.py). -/
def parse_frontmatter (yaml : String → Except String YamlVal) (content : String) :
    Except SkillErr (List (String × YamlVal) × String) :=
  if ¬ strStartsWith content "---" then
    .error (.parse "SKILL.md must start with YAML frontmatter (---)")
  else
    match pySplitMax2 content "---" with
    | [_, frontmatter_str, rest] =>
      let body := pyStrip rest
      match yaml frontmatter_str with
      | .error e => .error (.parse ("Invalid YAML in frontmatter: " ++ e))
      | .ok (.map metadata) => .ok (coerceMetadata metadata, body)
      | .ok _ => .error (.parse "SKILL.md frontmatter must be a YAML mapping")
    | _ => .error (.parse "SKILL.md frontmatter not properly closed with ---")

/-- An optional frontmatter field read into `LoadedSkill`'s `Option String`
slots (`license`, `compatibility`, `allowed-tools`); a non-scalar value is
represented by its string rendering. -/
def yamlStr? : Option YamlVal → Option String
  | some v => some (pyStrV v)
  | none => none

/-- The coerced `metadata` mapping read into `LoadedSkill.metadata`
(`metadata.get("metadata", {})`); a non-mapping value is dropped. -/
def metaStrings : Option YamlVal → List (String × String)
  | some (.map kvs) => kvs.map (fun q => (q.1, pyStrV q.2))
  | _ => []

/-- `read_skill` (parser.py). The directory is given by its resolved path
and the content of its definition file (`none` when neither `SKILL.md` nor
`skill.md` exists). -/
def read_skill (yaml : String → Except String YamlVal) (skill_dir : AbsPath)
    (content : Option String) (load_instructions : Bool) :
    Except SkillErr LoadedSkill :=
  match content with
  | none => .error (.parse ("SKILL.md not found in " ++ pathStr skill_dir))
  | some c =>
    match parse_frontmatter yaml c with
    | .error e => .error e
    | .ok (metadata, body) =>
      if (alookup metadata "name").isNone then
        .error (.validation "Missing required field in frontmatter: name")
      else if (alookup metadata "description").isNone then
        .error (.validation "Missing required field in frontmatter: description")
      else
        match alookup metadata "name", alookup metadata "description" with
        | some (.str name), some (.str description) =>
          if pyStrip name == "" then
            .error (.validation "Field 'name' must be a non-empty string")
          else if pyStrip description == "" then
            .error (.validation "Field 'description' must be a non-empty string")
          else
            .ok { name := pyStrip name
                  description := pyStrip description
                  path := skill_dir
                  state := if load_instructions then .ACTIVATED else .DISCOVERED
                  license := yamlStr? (alookup metadata "license")
                  compatibility := yamlStr? (alookup metadata "compatibility")
                  allowed_tools := yamlStr? (alookup metadata "allowed-tools")
                  metadata := metaStrings (alookup metadata "metadata")
                  instructions := if load_instructions then some body else none }
        | some (.str name), some _ =>
          if pyStrip name == "" then
            .error (.validation "Field 'name' must be a non-empty string")
          else .error (.validation "Field 'description' must be a non-empty string")
        | some _, _ => .error (.validation "Field 'name' must be a non-empty string")
        | none, _ => .error (.validation "Missing required field in frontmatter: name")

/-- `read_instructions` (parser.py): just the body of the definition file. -/
def read_instructions (yaml : String → Except String YamlVal) (skill_dir : AbsPath)
    (content : Option String) : Except SkillErr String :=
  match content with
  | none => .error (.parse ("SKILL.md not found in " ++ pathStr skill_dir))
  | some c =>
    match parse_frontmatter yaml c with
    | .error e => .error e
    | .ok (_, body) => .ok body

/-! ## Skill manager (`manager.py`) -/

/-- The mutable state of a `SkillManager`: the insertion-ordered name→skill
mapping and the active-skill pointer. -/
structure ManagerState where
  skills : List (String × LoadedSkill)
  active : Option String
deriving DecidableEq, Repr

/-- One candidate subdirectory as `SkillManager.discover` sees it: its
resolved path, the content of its definition file (`none` when neither
`SKILL.md` nor `skill.md` exists), and the error list `validate` (the
validator, consulted only when validation is enabled) returns for it. -/
structure CandDir where
  path : AbsPath
  content : Option String
  validationErrors : List String

/-- The per-candidate part of `discover`'s loop body, up to deduplication:
the skill to insert, or `none` when the candidate is skipped (no definition
file, validation errors while validation is on, or `read_skill` raising). -/
def candSkill (yaml : String → Except String YamlVal) (validate_on_load : Bool)
    (c : CandDir) : Option LoadedSkill :=
  match c.content with
  | none => none
  | some _ =>
    if validate_on_load ∧ ¬ c.validationErrors.isEmpty then none
    else
      match read_skill yaml c.path c.content false with
      | .error _ => none
      | .ok sk => some sk

/-- The deduplicating accumulation of `discover`: a duplicate name is
skipped, a new one appended to the mapping and to the discovered list. -/
def discoverFold :
    List (Option LoadedSkill) → List (String × LoadedSkill) → List String →
    List (String × LoadedSkill) × List String
  | [], skills, discovered => (skills, discovered)
  | none :: rest, skills, discovered => discoverFold rest skills discovered
  | some sk :: rest, skills, discovered =>
    if (alookup skills sk.name).isSome then discoverFold rest skills discovered
    else discoverFold rest (skills ++ [(sk.name, sk)]) (discovered ++ [sk.name])

/-- `SkillManager.discover`: clears and rebuilds the mapping from the
candidate subdirectories of the configured roots and returns the discovered
names; the active pointer is not touched. -/
def discover (yaml : String → Except String YamlVal) (validate_on_load : Bool)
    (m : ManagerState) (cands : List CandDir) : ManagerState × List String :=
  let r := discoverFold (cands.map (candSkill yaml validate_on_load)) [] []
  ({ skills := r.1, active := m.active }, r.2)

/-- `SkillManager.get_active_skill`; the Python truthiness test on
`self._active_skill` makes an empty-string pointer behave as none. -/
def get_active_skill (m : ManagerState) : Option LoadedSkill :=
  match m.active with
  | some name => if name ≠ "" then alookup m.skills name else none
  | none => none

/-- `SkillManager.activate`; `readInstr` stands for the outcome of the
`read_instructions` call on the skill's directory. Returns the manager state
after the call together with the returned skill or raised error. -/
def activate (m : ManagerState) (name : String)
    (readInstr : Except SkillErr String) :
    ManagerState × Except SkillErr LoadedSkill :=
  match alookup m.skills name with
  | none => (m, .error (.skillNotFound name (m.skills.map (·.1))))
  | some sk =>
    if sk.state = .ACTIVATED then
      ({ m with active := some name }, .ok sk)
    else
      match readInstr with
      | .ok instructions =>
        let sk' := { sk with instructions := some instructions, state := .ACTIVATED }
        ({ skills := m.skills.map (fun p => if p.1 == name then (p.1, sk') else p)
           active := some name },
         .ok sk')
      | .error e =>
        (m, .error (.validation
          ("Failed to load instructions for skill '" ++ name ++ "': " ++ errMsg e)))

/-- `LoadedSkill.scripts_dir` / `references_dir` / `assets_dir` (models.py):
the subdirectory when it is a directory on disk, per the `isDir` oracle. -/
def subDir (isDir : AbsPath → Bool) (sk : LoadedSkill) (sub : String) : Option AbsPath :=
  let d := sk.path ++ [sub]
  if isDir d then some d else none

/-- `SkillManager.get_resource_path` (manager.py). `isDir` and `fileEx`
abstract `Path.is_dir` / `Path.exists`; resolution is lexical, so the
`except Exception` around it (unreachable without filesystem loops) is not
modelled. -/
def get_resource_path (isDir fileEx : AbsPath → Bool) (m : ManagerState)
    (skill_name resource_type filename : String) : Except SkillErr AbsPath :=
  match alookup m.skills skill_name with
  | none => .error (.skillNotFound skill_name (m.skills.map (·.1)))
  | some sk =>
    let base_dir? : Except SkillErr (Option AbsPath) :=
      if resource_type == "scripts" then .ok (subDir isDir sk "scripts")
      else if resource_type == "references" then .ok (subDir isDir sk "references")
      else if resource_type == "assets" then .ok (subDir isDir sk "assets")
      else .error (.valueError ("Invalid resource_type '" ++ resource_type
        ++ "'. Must be 'scripts', 'references', or 'assets'."))
    match base_dir? with
    | .error e => .error e
    | .ok none => .error (.resourceNotFound skill_name resource_type filename)
    | .ok (some base_dir) =>
      let resource_path := resolvePath base_dir filename
      let base_dir_resolved := normSegs [] base_dir
      if ¬ strStartsWith (pathStr resource_path) (pathStr base_dir_resolved) then
        .error (.resourceNotFound skill_name resource_type filename)
      else if ¬ fileEx resource_path then
        .error (.resourceNotFound skill_name resource_type filename)
      else
        .ok resource_path

/-! ## Script executor (`security.py`) -/

/-- `ExecutionResult` (security.py). -/
structure ExecutionResult where
  returncode : Int
  stdout : String
  stderr : String
  timed_out : Bool := false
deriving DecidableEq, Repr

/-- The construction-time state of a `ScriptExecutor`, `has_firejail` being
the `shutil.which("firejail")` probe done once in `__init__`. -/
structure ExecConfig where
  sandbox_mode : Bool := true
  allowed_interpreters : List String := ["python3", "python", "bash", "sh", "node"]
  timeout : Int := 30
  allow_network : Bool := false
  allow_filesystem_write : Bool := false
  has_firejail : Bool
deriving DecidableEq, Repr

/-- Python `timeout = timeout or self.timeout`: an absent or zero override
falls back to the default. -/
def effTimeout (override : Option Int) (dflt : Int) : Int :=
  match override with
  | some t => if t = 0 then dflt else t
  | none => dflt

/-- The extension table of `_get_interpreter`. -/
def interpreter_map : List (String × String) :=
  [(".py", "python3"), (".sh", "bash"), (".bash", "bash"), (".js", "node")]

/-- The shebang branch of `_get_interpreter`: `firstLine` is the script's
first line (`none` when opening or reading the file raises). Returns
Python's `interpreter` value after that branch — `none` for Python `None`,
and possibly the empty string (a shebang path ending in `/`). -/
def shebangInterpreter (firstLine : Option String) : Option String :=
  match firstLine with
  | none => none
  | some l =>
    if strStartsWith l "#!" then
      match pySplitWs (pyStrip (strDrop l 2)) with
      | [] => none
      | p0 :: rest =>
        if strContains p0 "env" then rest.head?
        else some ((pySplit p0 "/").getLastD "")
    else none

/-- The message of the undeterminable-interpreter `SecurityError`. -/
def noInterpMsg (script_path : AbsPath) : String :=
  "Could not determine interpreter for " ++ pathStr script_path
    ++ ". Supported extensions: ['.py', '.sh', '.bash', '.js']"

/-- The message of the disallowed-interpreter `SecurityError`. -/
def badInterpMsg (interpreter : String) (allowed : List String) : String :=
  "Interpreter '" ++ interpreter ++ "' not allowed. Allowed: " ++ strJoin ", " allowed

/-- The determination steps of `_get_interpreter`: the extension table on
the lowercased suffix, then the shebang fallback. -/
def detectedInterpreter (script_path : AbsPath) (firstLine : Option String) :
    Option String :=
  match alookup interpreter_map (strLower (pySuffix (script_path.getLastD ""))) with
  | some i => some i
  | none => shebangInterpreter firstLine

/-- The normalization step of `_get_interpreter`: python variants collapse
to `python3` when a "3" occurs anywhere in the detected name, to `python`
otherwise. -/
def normalizeInterpreter (i : String) : String :=
  if strStartsWith i "python" then
    if strContains i "3" then "python3" else "python"
  else i

/-- `ScriptExecutor._get_interpreter` (security.py), over the script's path
and first line; `if not interpreter` treats both `None` and the empty
string as undetermined. -/
def get_interpreter (allowed : List String) (script_path : AbsPath)
    (firstLine : Option String) : Except SkillErr String :=
  match detectedInterpreter script_path firstLine with
  | none => .error (.security (noInterpMsg script_path))
  | some i =>
    if i == "" then .error (.security (noInterpMsg script_path))
    else
      let i := normalizeInterpreter i
      if i ∈ allowed then .ok i
      else .error (.security (badInterpMsg i allowed))

/-- `ScriptExecutor._validate_script_path`: canonicalize both paths, then a
string-prefix check with a trailing separator (contrast the check inside
`get_resource_path`, which appends no separator). -/
def validate_script_path (script_path skill_dir : AbsPath) : Except SkillErr Unit :=
  let script_resolved := normSegs [] script_path
  let skill_resolved := normSegs [] skill_dir
  if ¬ strStartsWith (pathStr script_resolved) (pathStr skill_resolved ++ "/") then
    if script_resolved ≠ skill_resolved then
      .error (.security ("Script path '" ++ pathStr script_path ++ "' is outside skill directory"))
    else .ok ()
  else .ok ()

/-- `ScriptExecutor._build_command`; `which` abstracts `shutil.which`. -/
def build_command (cfg : ExecConfig) (which : String → Option String)
    (interpreter : String) (script_path : AbsPath) (arguments : List String)
    (working_dir : AbsPath) : List String :=
  let cmd : List String :=
    if cfg.sandbox_mode ∧ cfg.has_firejail then
      ["firejail", "--quiet", "--noprofile"]
        ++ (if ¬ cfg.allow_network then ["--net=none"] else [])
        ++ (if ¬ cfg.allow_filesystem_write then
              ["--read-only=/", "--whitelist=" ++ pathStr working_dir]
            else [])
        ++ ["--"]
    else []
  let interpreter_path := (which interpreter).getD interpreter
  cmd ++ [interpreter_path, pathStr script_path] ++ arguments

/-- `env.get(k)` over the calling environment, modelled as an
insertion-ordered association list. -/
def envLookup (e : List (String × String)) (k : String) : Option String :=
  alookup e k

/-- Python `env[k] = v` on a dict: replace in place, or append a new key. -/
def envSet (e : List (String × String)) (k v : String) : List (String × String) :=
  if (e.find? (fun p => p.1 == k)).isSome then
    e.map (fun p => if p.1 == k then (k, v) else p)
  else e ++ [(k, v)]

/-- `ScriptExecutor._get_restricted_env` (security.py) over the calling
environment `osEnv` (`os.environ`). -/
def get_restricted_env (osEnv : List (String × String)) (working_dir : AbsPath) :
    List (String × String) :=
  let env : List (String × String) :=
    [("PATH", "/usr/bin:/bin:/usr/local/bin"),
     ("HOME", (envLookup osEnv "HOME").getD "/tmp"),
     ("LANG", (envLookup osEnv "LANG").getD "en_US.UTF-8"),
     ("LC_ALL", (envLookup osEnv "LC_ALL").getD "en_US.UTF-8"),
     ("PWD", pathStr working_dir)]
  let env :=
    match envLookup osEnv "VIRTUAL_ENV" with
    | some v =>
      let env := envSet env "VIRTUAL_ENV" v
      envSet env "PATH" (v ++ "/bin:" ++ ((envLookup env "PATH").getD ""))
    | none => env
  envSet env "PYTHONPATH" (pathStr working_dir)

/-- What the `subprocess.run` call inside `ScriptExecutor.run` does: normal
completion, expiry of the timeout, or one of the caught exception classes. -/
inductive ProcBehavior
  | completed (returncode : Int) (stdout stderr : String)
  | timedOut
  | fileNotFound (msg : String)
  | permissionError (msg : String)
  | otherError (msg : String)
deriving DecidableEq, Repr

/-- A script file as `ScriptExecutor.run` probes it: its path, first line,
and the `exists()` / `is_file()` answers. -/
structure ScriptFile where
  path : AbsPath
  firstLine : Option String
  existsOnDisk : Bool
  isFile : Bool
deriving Repr

/-- `ScriptExecutor.run` (security.py). The built command and restricted
environment feed the spawn, whose outcome is the `behavior` argument. -/
def run (cfg : ExecConfig) (script : ScriptFile) (arguments : List String)
    (working_dir : AbsPath) (timeout? : Option Int) (behavior : ProcBehavior) :
    Except SkillErr ExecutionResult :=
  let timeout := effTimeout timeout? cfg.timeout
  match validate_script_path script.path working_dir with
  | .error e => .error e
  | .ok _ =>
    match get_interpreter cfg.allowed_interpreters script.path script.firstLine with
    | .error e => .error e
    | .ok _interpreter =>
      if ¬ script.existsOnDisk then .error (.execution "Script file does not exist")
      else if ¬ script.isFile then .error (.execution "Script path is not a file")
      else
        match behavior with
        | .completed rc out err =>
          .ok { returncode := rc, stdout := out, stderr := err }
        | .timedOut =>
          .ok { returncode := -1, stdout := "",
                stderr := "Script timed out after " ++ toString timeout ++ " seconds",
                timed_out := true }
        | .fileNotFound msg => .error (.execution ("Interpreter not found: " ++ msg))
        | .permissionError msg => .error (.execution ("Permission denied: " ++ msg))
        | .otherError msg => .error (.execution msg)

/-- What `ScriptExecutor.run_command` decides before any process exists:
either an early refusal return, or the argument vector it spawns. -/
inductive CmdAction
  | refuse (msg : String)
  | spawn (cmd : List String) (timeout : Int)
deriving DecidableEq, Repr

/-- The fail-closed refusal message for network isolation. -/
def refuseNetworkMsg : String :=
  "Error: Network access is disabled but firejail is not installed to enforce it. Install firejail or set allow_network=True."

/-- The fail-closed refusal message for filesystem-write isolation. -/
def refuseFsMsg : String :=
  "Error: Filesystem write is disabled but firejail is not installed to enforce it. Install firejail or set allow_filesystem_write=True."

/-- `ScriptExecutor.run_command` (security.py) up to its `subprocess.run`
call: the fail-closed checks, then the sandboxed command construction. -/
def run_command_action (cfg : ExecConfig) (command : String)
    (timeout? : Option Int) : CmdAction :=
  let timeout := effTimeout timeout? cfg.timeout
  if cfg.sandbox_mode ∧ ¬ cfg.allow_network ∧ ¬ cfg.has_firejail then
    .refuse refuseNetworkMsg
  else if cfg.sandbox_mode ∧ ¬ cfg.allow_filesystem_write ∧ ¬ cfg.has_firejail then
    .refuse refuseFsMsg
  else
    let cmd : List String :=
      (if cfg.sandbox_mode ∧ cfg.has_firejail then
        ["firejail", "--quiet", "--noprofile"]
          ++ (if ¬ cfg.allow_network then ["--net=none"] else [])
          ++ (if ¬ cfg.allow_filesystem_write then ["--read-only=/"] else [])
          ++ ["--"]
      else [])
      ++ ["bash", "-c", command]
    .spawn cmd timeout

/-! ## The agent's bash tool (`agent.py`) -/

/-- `re.findall(r"Bash\(([^:]+):\*\)", s)` for that fixed pattern: captured
command prefixes, scanned left to right, non-overlapping ( `[^:]+` is greedy
and cannot backtrack past a colon, so a match is exactly `Bash(`, one or
more non-colon characters, then `:*)` ). The fuel (the input length at the
call site; every step consumes at least one character) keeps the recursion
structural. -/
def scanBashAux : Nat → List Char → List String
  | _, [] => []
  | 0, _ => []
  | fuel + 1, l =>
    match l with
    | 'B' :: 'a' :: 's' :: 'h' :: '(' :: after =>
      let tok := after.takeWhile (fun c => c ≠ ':')
      match after.dropWhile (fun c => c ≠ ':') with
      | ':' :: '*' :: ')' :: rest2 =>
        if tok.isEmpty then scanBashAux fuel ('a' :: 's' :: 'h' :: '(' :: after)
        else String.mk tok :: scanBashAux fuel rest2
      | _ => scanBashAux fuel ('a' :: 's' :: 'h' :: '(' :: after)
    | _ :: t => scanBashAux fuel t
    | [] => []

/-- The command prefixes a skill's `allowed-tools` string declares. -/
def bashAllowed (s : String) : List String := scanBashAux s.data.length s.data

/-- Python `set()` of a list: first occurrences, in order (the order is only
observed through `sorted`, which forgets it). -/
def pyDedupAux (seen : List String) : List String → List String
  | [] => []
  | x :: xs => if x ∈ seen then pyDedupAux seen xs else x :: pyDedupAux (x :: seen) xs

/-- The distinct elements of a list, first occurrences kept. -/
def pyDedup (l : List String) : List String := pyDedupAux [] l

/-- Lexicographic code-point comparison of character lists — Python's `<=`
on `str`. -/
def charListLe : List Char → List Char → Bool
  | [], _ => true
  | _ :: _, [] => false
  | a :: as, b :: bs =>
    if a.toNat < b.toNat then true
    else if b.toNat < a.toNat then false
    else charListLe as bs

/-- Python `a <= b` on strings. -/
def strLeB (a b : String) : Bool := charListLe a.data b.data

/-- Insertion into an ascending list of strings. -/
def insortStr (x : String) : List String → List String
  | [] => [x]
  | y :: ys => if strLeB x y then x :: y :: ys else y :: insortStr x ys

/-- Python `sorted(set(l))`: the distinct elements in ascending
(code-point lexicographic) order. -/
def sortedUnique (l : List String) : List String := (pyDedup l).foldr insortStr []

/-- What one call of the `bash` tool closure does: delegate the command to
`ScriptExecutor.run_command`, or return a rejection string. -/
inductive BashOut
  | exec (command : String)
  | reject (msg : String)
deriving DecidableEq, Repr

/-- The rejection message for a command whose leading token is not among the
active skill's declared prefixes. -/
def notAllowedMsg (skill_name base_cmd : String) (allowed : List String) : String :=
  "Error: Command '" ++ base_cmd ++ "' is not allowed by skill '" ++ skill_name
    ++ "'. Allowed commands: " ++ strJoin ", " (sortedUnique allowed)

/-- The `bash` closure of `SkillsReActAgent._create_bash_tool` (agent.py),
over the manager's current active skill. -/
def bashTool (active_skill : Option LoadedSkill) (command : String) : BashOut :=
  match active_skill with
  | none => .reject "Error: No skill is active. Activate a skill first."
  | some sk =>
    let declMsg := "Error: Skill '" ++ sk.name ++ "' does not declare any allowed-tools."
    match sk.allowed_tools with
    | none => .reject declMsg
    | some at_ =>
      if at_ == "" then .reject declMsg
      else
        let allowed_commands := bashAllowed at_
        if allowed_commands.isEmpty then
          .reject ("Error: Skill '" ++ sk.name ++ "' does not allow any bash commands.")
        else
          match pySplitWs (pyStrip command) with
          | [] => .reject "Error: Empty command"
          | base_cmd :: _ =>
            if base_cmd ∈ allowed_commands then .exec command
            else .reject (notAllowedMsg sk.name base_cmd allowed_commands)

/-! ## Sanity checks of the embedding on concrete inputs -/

example : pyStrip "  a b\n" = "a b" := by rfl
example : pySplitWs "  nmap  -sV target " = ["nmap", "-sV", "target"] := by rfl
example : strContains "abcd" "bc" = true := by rfl
example : strContains "abcd" "bd" = false := by rfl
example : pySplit "a---b---c" "---" = ["a", "b", "c"] := by rfl
example : pySplitMax2 "---\nname: a\n---\nbody---x" "---" =
    ["", "\nname: a\n", "\nbody---x"] := by rfl
example : pySuffix "run.PY" = ".PY" := by rfl
example : pySuffix ".bashrc" = "" := by rfl
example : resolvePath ["a", "scripts"] "../b/f.txt" = ["a", "b", "f.txt"] := by rfl
example : resolvePath ["a", "scripts"] "/etc/passwd" = ["etc", "passwd"] := by rfl
example : pathStr ["a", "b"] = "/a/b" := by rfl
example : bashAllowed "Bash(nmap:*) Bash(nikto:*)" = ["nmap", "nikto"] := by rfl
example : bashAllowed "Bash(a b:*)x" = ["a b"] := by rfl
example : bashAllowed "Bash(:*)" = [] := by rfl
example : bashAllowed "Bash(Bash(x:*)" = ["Bash(x"] := by rfl
example : sortedUnique ["b", "a", "b"] = ["a", "b"] := by rfl
example : get_interpreter ["python3", "python", "bash", "sh", "node"]
    ["s", "scripts", "t.rb"] (some "#!/usr/bin/ruby")
    = .error (.security (badInterpMsg "ruby" ["python3", "python", "bash", "sh", "node"])) := by rfl
example : get_interpreter ["python3"] ["s", "x"] (some "#!/usr/bin/env python3.11")
    = .ok "python3" := by rfl
example : get_interpreter ["python3"] ["s", "x"] none
    = .error (.security (noInterpMsg ["s", "x"])) := by rfl
example : get_interpreter ["python3"] ["s", "x"] (some "#!/usr/bin/")
    = .error (.security (noInterpMsg ["s", "x"])) := by rfl
example :
    (discover
      (fun s => if s == "\nname: dup\ndescription: one\n" then
          .ok (.map [("name", .str "dup"), ("description", .str "one")])
        else if s == "\nname: dup\ndescription: two\n" then
          .ok (.map [("name", .str "dup"), ("description", .str "two")])
        else .error "YAML")
      false { skills := [], active := none }
      [{ path := ["r1", "a"], content := some "---\nname: dup\ndescription: one\n---\nA",
         validationErrors := [] },
       { path := ["r2", "b"], content := some "---\nname: dup\ndescription: two\n---\nB",
         validationErrors := [] }]).2 = ["dup"] := by rfl
example :
    ((discover
      (fun s => if s == "\nname: dup\ndescription: one\n" then
          .ok (.map [("name", .str "dup"), ("description", .str "one")])
        else if s == "\nname: dup\ndescription: two\n" then
          .ok (.map [("name", .str "dup"), ("description", .str "two")])
        else .error "YAML")
      false { skills := [], active := none }
      [{ path := ["r1", "a"], content := some "---\nname: dup\ndescription: one\n---\nA",
         validationErrors := [] },
       { path := ["r2", "b"], content := some "---\nname: dup\ndescription: two\n---\nB",
         validationErrors := [] }]).1.skills.map (fun p => p.2.description)) = ["one"] := by rfl

/-! ## Helper lemmas -/

theorem alookup_append {α : Type} (l₁ l₂ : List (String × α)) (k : String) :
    alookup (l₁ ++ l₂) k = ((alookup l₁ k).or (alookup l₂ k)) := by
  induction l₁ with
  | nil => simp [alookup]
  | cons p rest ih =>
    by_cases h : p.1 == k
    · simp [alookup, List.find?, h]
    · simp only [alookup, List.cons_append, List.find?, h] at *
      simpa [alookup] using ih

theorem alookup_eq_none_iff {α : Type} (l : List (String × α)) (k : String) :
    alookup l k = none ↔ k ∉ l.map (·.1) := by
  induction l with
  | nil => simp [alookup]
  | cons p rest ih =>
    by_cases h : p.1 == k
    · have he : p.1 = k := by simpa using h
      simp [alookup, List.find?, h, he]
    · have hne : p.1 ≠ k := by simpa using h
      simp only [alookup, List.find?, h, List.map_cons, List.mem_cons]
      rw [show ((rest.find? (fun p => p.1 == k)).map (·.2) = none) ↔
          (alookup rest k = none) from Iff.rfl, ih]
      simp [Ne.symm hne]

theorem isSubrun_iff_infix (sub l : List Char) :
    isSubrun sub l = true ↔ sub <:+: l := by
  induction l with
  | nil =>
    simp only [isSubrun, List.isEmpty_iff]
    constructor
    · intro h; simp [h]
    · intro h; simpa using List.eq_nil_of_infix_nil h
  | cons c rest ih =>
    simp only [isSubrun, Bool.or_eq_true, List.isPrefixOf_iff_prefix, ih]
    exact (List.infix_cons_iff).symm

theorem strContains_append_middle (a b c : String) :
    strContains (a ++ b ++ c) b = true := by
  rw [strContains, isSubrun_iff_infix]
  exact ⟨a.data, c.data, by simp⟩

theorem mem_insortStr (x y : String) (l : List String) :
    y ∈ insortStr x l ↔ y = x ∨ y ∈ l := by
  induction l with
  | nil => simp [insortStr]
  | cons z rest ih =>
    by_cases h : strLeB x z
    · simp [insortStr, h]
    · simp [insortStr, h, ih]
      tauto

theorem mem_pyDedupAux : ∀ (l seen : List String) (y : String),
    y ∈ pyDedupAux seen l ↔ (y ∈ l ∧ y ∉ seen)
  | [], seen, y => by simp [pyDedupAux]
  | z :: rest, seen, y => by
    by_cases hz : z ∈ seen
    · rw [pyDedupAux, if_pos hz, mem_pyDedupAux rest seen y]
      constructor
      · rintro ⟨h1, h2⟩; exact ⟨List.mem_cons_of_mem _ h1, h2⟩
      · rintro ⟨h1, h2⟩
        rcases List.mem_cons.mp h1 with rfl | h1
        · exact absurd hz h2
        · exact ⟨h1, h2⟩
    · rw [pyDedupAux, if_neg hz]
      simp only [List.mem_cons, mem_pyDedupAux rest (z :: seen) y]
      by_cases hyz : y = z
      · subst hyz; tauto
      · constructor
        · rintro (rfl | ⟨h1, h2⟩)
          · exact ⟨Or.inl rfl, hz⟩
          · exact ⟨Or.inr h1, fun hy => h2 (Or.inr hy)⟩
        · rintro ⟨rfl | h1, h2⟩
          · exact Or.inl rfl
          · exact Or.inr ⟨h1, by simp [hyz, h2]⟩

theorem mem_pyDedup (l : List String) (y : String) : y ∈ pyDedup l ↔ y ∈ l := by
  simp [pyDedup, mem_pyDedupAux]

theorem mem_sortedUnique (l : List String) (y : String) :
    y ∈ sortedUnique l ↔ y ∈ l := by
  rw [sortedUnique]
  have : ∀ d : List String, y ∈ d.foldr insortStr [] ↔ y ∈ d := by
    intro d
    induction d with
    | nil => simp
    | cons z rest ih => simp [List.foldr, mem_insortStr, ih]
  rw [this, mem_pyDedup]

theorem strJoin_data_infix (sep : String) (l : List String) (x : String) (h : x ∈ l) :
    x.data <:+: (strJoin sep l).data := by
  induction l with
  | nil => simp at h
  | cons z rest ih =>
    cases rest with
    | nil =>
      rcases List.mem_cons.mp h with rfl | hx
      · exact List.infix_refl _
      · simp at hx
    | cons r rs =>
      rcases List.mem_cons.mp h with rfl | hx
      · refine ⟨[], sep.data ++ (strJoin sep (r :: rs)).data, ?_⟩
        simp [strJoin, String.data_append]
      · have h1 : x.data <:+: (strJoin sep (r :: rs)).data := ih hx
        have h2 : (strJoin sep (r :: rs)).data <:+:
            (strJoin sep (z :: r :: rs)).data := by
          refine ⟨z.data ++ sep.data, [], ?_⟩
          simp [strJoin, String.data_append]
        exact h1.trans h2

theorem discoverFold_alookup :
    ∀ (opts : List (Option LoadedSkill)) (acc : List (String × LoadedSkill))
      (names : List String) (n : String),
    alookup (discoverFold opts acc names).1 n
      = ((alookup acc n).or ((opts.filterMap id).find? (fun sk => sk.name == n)))
  | [], acc, names, n => by simp [discoverFold]
  | none :: rest, acc, names, n => by
    simpa [discoverFold] using discoverFold_alookup rest acc names n
  | some sk :: rest, acc, names, n => by
    rw [discoverFold]
    by_cases h : (alookup acc sk.name).isSome
    · rw [if_pos h, discoverFold_alookup rest acc names n]
      by_cases hn : sk.name == n
      · have he : sk.name = n := by simpa using hn
        subst he
        obtain ⟨v, hv⟩ := Option.isSome_iff_exists.mp h
        simp [hv, List.find?, hn]
      · simp [List.find?, hn]
    · rw [if_neg h, discoverFold_alookup rest (acc ++ [(sk.name, sk)]) (names ++ [sk.name]) n,
        alookup_append]
      by_cases hn : sk.name == n
      · simp [alookup, List.find?, hn, Option.or_assoc]
      · simp [alookup, List.find?, hn, Option.or_assoc]

theorem discoverFold_names :
    ∀ (opts : List (Option LoadedSkill)) (acc : List (String × LoadedSkill))
      (names : List String), names = acc.map (·.1) →
    (discoverFold opts acc names).2 = (discoverFold opts acc names).1.map (·.1)
  | [], acc, names, h => by simpa [discoverFold] using h
  | none :: rest, acc, names, h => by
    simpa [discoverFold] using discoverFold_names rest acc names h
  | some sk :: rest, acc, names, h => by
    rw [discoverFold]
    by_cases hc : (alookup acc sk.name).isSome
    · rw [if_pos hc]
      exact discoverFold_names rest acc names h
    · rw [if_neg hc]
      exact discoverFold_names rest (acc ++ [(sk.name, sk)]) (names ++ [sk.name])
        (by simp [h])

theorem discoverFold_nodup :
    ∀ (opts : List (Option LoadedSkill)) (acc : List (String × LoadedSkill))
      (names : List String), (acc.map (·.1)).Nodup →
    ((discoverFold opts acc names).1.map (·.1)).Nodup
  | [], acc, names, h => by simpa [discoverFold] using h
  | none :: rest, acc, names, h => by
    simpa [discoverFold] using discoverFold_nodup rest acc names h
  | some sk :: rest, acc, names, h => by
    rw [discoverFold]
    by_cases hc : (alookup acc sk.name).isSome
    · rw [if_pos hc]
      exact discoverFold_nodup rest acc names h
    · rw [if_neg hc]
      refine discoverFold_nodup rest (acc ++ [(sk.name, sk)]) (names ++ [sk.name]) ?_
      have hnm : sk.name ∉ acc.map (·.1) :=
        (alookup_eq_none_iff acc sk.name).mp (Option.not_isSome_iff_eq_none.mp hc)
      simp [List.nodup_append, h, hnm]

theorem alookup_cons {α : Type} (p : String × α) (rest : List (String × α)) (k : String) :
    alookup (p :: rest) k = if p.1 == k then some p.2 else alookup rest k := by
  by_cases h : p.1 == k <;> simp [alookup, List.find?, h]

theorem read_skill_ok_state (yaml : String → Except String YamlVal)
    (skill_dir : AbsPath) (content : Option String) (load_instructions : Bool)
    (sk : LoadedSkill) (h : read_skill yaml skill_dir content load_instructions = .ok sk) :
    sk.state = (if load_instructions then SkillState.ACTIVATED else SkillState.DISCOVERED) := by
  rcases content with _ | c
  · simp [read_skill] at h
  · rw [read_skill] at h
    rcases hpf : parse_frontmatter yaml c with e | md
    · rw [hpf] at h; simp at h
    · rcases md with ⟨metadata, body⟩
      rw [hpf] at h
      simp only [] at h
      by_cases h1 : (alookup metadata "name").isNone
      · rw [if_pos h1] at h; simp at h
      · rw [if_neg h1] at h
        by_cases h2 : (alookup metadata "description").isNone
        · rw [if_pos h2] at h; simp at h
        · rw [if_neg h2] at h
          rcases hn : alookup metadata "name" with _ | nv <;> rw [hn] at h
          · simp only [] at h; simp at h
          · rcases hd : alookup metadata "description" with _ | dv <;> rw [hd] at h
            · rcases nv with nvs | nvx | nvm <;> (simp only [] at h) <;> simp at h
            · rcases nv with nvs | nvx | nvm <;> rcases dv with dvs | dvx | dvm <;>
                (simp only [] at h) <;> (try simp at h) <;>
                (try (split at h <;> (try simp at h))) <;>
                (try (split at h <;> (try simp at h)))
              cases h
              rfl

theorem candSkill_state (yaml : String → Except String YamlVal) (v : Bool)
    (c : CandDir) (sk : LoadedSkill) (h : candSkill yaml v c = some sk) :
    sk.state = SkillState.DISCOVERED := by
  unfold candSkill at h
  rcases hc : c.content with _ | s <;> rw [hc] at h
  · simp at h
  · simp only [] at h
    split at h
    · simp at h
    · rcases hr : read_skill yaml c.path (some s) false with e | sk' <;> rw [hr] at h
      · simp only [] at h; simp at h
      · simp only [] at h
        simp only [Option.some.injEq] at h
        subst h
        simpa using read_skill_ok_state yaml c.path (some s) false sk' hr

theorem map_fst_replace (l : List (String × LoadedSkill)) (name : String)
    (sk' : LoadedSkill) :
    ((l.map (fun p => if p.1 == name then (p.1, sk') else p)).map (·.1)) = l.map (·.1) := by
  induction l with
  | nil => simp
  | cons p rest ih =>
    have hh : (if p.1 == name then (p.1, sk') else p).1 = p.1 := by
      by_cases hp : p.1 == name <;> simp [hp]
    simp only [List.map_cons, hh, ih]

theorem alookup_replace_ne (l : List (String × LoadedSkill)) (name k : String)
    (sk' : LoadedSkill) (hk : k ≠ name) :
    alookup (l.map (fun p => if p.1 == name then (p.1, sk') else p)) k = alookup l k := by
  induction l with
  | nil => simp [alookup]
  | cons p rest ih =>
    by_cases hp : p.1 == name
    · have he : p.1 = name := by simpa using hp
      rw [List.map_cons, if_pos hp, alookup_cons, alookup_cons]
      have hne : (p.1 == k) = false := by simp [he, Ne.symm hk]
      dsimp only
      rw [hne]
      rw [if_neg (by simp), if_neg (by simp)]
      exact ih
    · rw [List.map_cons, if_neg hp, alookup_cons, alookup_cons]
      by_cases hpk : p.1 == k
      · rw [if_pos hpk, if_pos hpk]
      · have hpk2 : (p.1 == k) = false := by simpa using hpk
        rw [hpk2]
        rw [if_neg (by simp), if_neg (by simp)]
        exact ih

theorem alookup_replace_self (l : List (String × LoadedSkill)) (name : String)
    (sk sk' : LoadedSkill) (h : alookup l name = some sk) :
    alookup (l.map (fun p => if p.1 == name then (p.1, sk') else p)) name = some sk' := by
  induction l with
  | nil => simp [alookup] at h
  | cons p rest ih =>
    by_cases hp : p.1 == name
    · rw [List.map_cons, if_pos hp, alookup_cons]
      simp [hp]
    · rw [List.map_cons, if_neg hp, alookup_cons]
      rw [alookup_cons] at h
      simp only [hp, Bool.false_eq_true, if_false] at h ⊢
      exact ih h

/-! ## Claim theorems -/

/-- C1: the claim says every resolved resource path not contained in the
resource subdirectory raises ResourceNotFoundError. The code only checks
`str(resource).startswith(str(base))` with no separator appended, so a
sibling directory sharing the name prefix (here `scripts2` next to
`scripts`) escapes containment yet is served: at this input the call
returns the path even though the resolved path is not under the base
directory. -/
theorem get_resource_path_escape_undetected :
    get_resource_path
      (fun p => p == ["home", "skills", "s", "scripts"])
      (fun p => p == ["home", "skills", "s", "scripts2", "f.txt"])
      { skills := [("s", { name := "s", description := "d", path := ["home", "skills", "s"] })],
        active := none }
      "s" "scripts" "../scripts2/f.txt"
      = .ok ["home", "skills", "s", "scripts2", "f.txt"]
    ∧ ¬ (["home", "skills", "s", "scripts"] <+: ["home", "skills", "s", "scripts2", "f.txt"]) :=
  ⟨by rfl, by decide⟩

/-- C2: with sandboxing enabled, firejail absent, and at least one of
network or filesystem-write disallowed, `run_command` returns one of the two
explanatory refusal strings and never reaches its spawn. -/
theorem run_command_fail_closed (cfg : ExecConfig) (command : String)
    (timeout? : Option Int)
    (hs : cfg.sandbox_mode = true) (hf : cfg.has_firejail = false)
    (hr : cfg.allow_network = false ∨ cfg.allow_filesystem_write = false) :
    (run_command_action cfg command timeout? = .refuse refuseNetworkMsg ∨
      run_command_action cfg command timeout? = .refuse refuseFsMsg) ∧
    ∀ cmd t, run_command_action cfg command timeout? ≠ .spawn cmd t := by
  cases hn : cfg.allow_network with
  | false => simp [run_command_action, hs, hf, hn]
  | true =>
    rcases hr with h | h
    · rw [h] at hn; exact absurd hn (by simp)
    · simp [run_command_action, hs, hf, hn, h]

theorem run_command_fail_closed_witness :
    (run_command_action { has_firejail := false } "echo hi" none
        = .refuse refuseNetworkMsg ∨
      run_command_action { has_firejail := false } "echo hi" none
        = .refuse refuseFsMsg) ∧
    ∀ cmd t, run_command_action { has_firejail := false } "echo hi" none
        ≠ .spawn cmd t :=
  run_command_fail_closed { has_firejail := false } "echo hi" none rfl rfl (Or.inl rfl)

/-- C5: when the pre-checks pass and the spawned process exceeds the
effective timeout, `run` returns (never raises) an `ExecutionResult` with
`timed_out = true`, return code `-1`, empty stdout and the descriptive
timeout message in stderr. -/
theorem run_timeout_recoverable (cfg : ExecConfig) (script : ScriptFile)
    (arguments : List String) (working_dir : AbsPath) (timeout? : Option Int)
    (interp : String)
    (hv : validate_script_path script.path working_dir = .ok ())
    (hi : get_interpreter cfg.allowed_interpreters script.path script.firstLine = .ok interp)
    (he : script.existsOnDisk = true) (hf : script.isFile = true) :
    run cfg script arguments working_dir timeout? .timedOut =
      .ok { returncode := -1, stdout := "",
            stderr := "Script timed out after "
              ++ toString (effTimeout timeout? cfg.timeout) ++ " seconds",
            timed_out := true } := by
  unfold run
  rw [hv]
  simp only []
  rw [hi]
  simp only []
  simp [he, hf]

theorem run_timeout_recoverable_witness :
    run { has_firejail := false }
        { path := ["skills", "s", "scripts", "a.py"], firstLine := none,
          existsOnDisk := true, isFile := true }
        [] ["skills", "s"] none .timedOut =
      .ok { returncode := -1, stdout := "",
            stderr := "Script timed out after "
              ++ toString (effTimeout none (30 : Int)) ++ " seconds",
            timed_out := true } :=
  run_timeout_recoverable { has_firejail := false }
    { path := ["skills", "s", "scripts", "a.py"], firstLine := none,
      existsOnDisk := true, isFile := true }
    [] ["skills", "s"] none "python3" (by rfl) (by rfl) rfl rfl

/-- The restricted environment when the caller has no `VIRTUAL_ENV`. -/
theorem get_restricted_env_no_venv (osEnv : List (String × String)) (wd : AbsPath)
    (h : envLookup osEnv "VIRTUAL_ENV" = none) :
    get_restricted_env osEnv wd =
      [("PATH", "/usr/bin:/bin:/usr/local/bin"),
       ("HOME", (envLookup osEnv "HOME").getD "/tmp"),
       ("LANG", (envLookup osEnv "LANG").getD "en_US.UTF-8"),
       ("LC_ALL", (envLookup osEnv "LC_ALL").getD "en_US.UTF-8"),
       ("PWD", pathStr wd),
       ("PYTHONPATH", pathStr wd)] := by
  unfold get_restricted_env
  rw [h]
  rfl

/-- The restricted environment when the caller has `VIRTUAL_ENV = v`. -/
theorem get_restricted_env_venv (osEnv : List (String × String)) (wd : AbsPath)
    (v : String) (h : envLookup osEnv "VIRTUAL_ENV" = some v) :
    get_restricted_env osEnv wd =
      [("PATH", v ++ "/bin:" ++ "/usr/bin:/bin:/usr/local/bin"),
       ("HOME", (envLookup osEnv "HOME").getD "/tmp"),
       ("LANG", (envLookup osEnv "LANG").getD "en_US.UTF-8"),
       ("LC_ALL", (envLookup osEnv "LC_ALL").getD "en_US.UTF-8"),
       ("PWD", pathStr wd),
       ("VIRTUAL_ENV", v),
       ("PYTHONPATH", pathStr wd)] := by
  unfold get_restricted_env
  rw [h]
  rfl

/-- C8 counterexample: a calling environment defining `VIRTUAL_ENV` has that
variable inherited by the child and prepended to `PATH`, so the child
environment does not consist exactly of the six claimed variables and
`PATH` is not the fixed system list. -/
theorem get_restricted_env_inherits_venv :
    envLookup (get_restricted_env [("VIRTUAL_ENV", "/venv")] ["w"]) "VIRTUAL_ENV"
        = some "/venv" ∧
    envLookup (get_restricted_env [("VIRTUAL_ENV", "/venv")] ["w"]) "PATH"
        = some "/venv/bin:/usr/bin:/bin:/usr/local/bin" :=
  ⟨rfl, rfl⟩

/-- C8 (amended): the child environment consists exactly of PATH, HOME,
LANG, LC_ALL, PWD and PYTHONPATH as claimed, except that a `VIRTUAL_ENV`
variable of the calling environment is additionally inherited and its
`/bin` directory prepended to PATH; no other calling-environment variable
is inherited. -/
theorem get_restricted_env_amended (osEnv : List (String × String)) (wd : AbsPath) :
    envLookup (get_restricted_env osEnv wd) "PWD" = some (pathStr wd) ∧
    envLookup (get_restricted_env osEnv wd) "PYTHONPATH" = some (pathStr wd) ∧
    envLookup (get_restricted_env osEnv wd) "HOME"
      = some ((envLookup osEnv "HOME").getD "/tmp") ∧
    envLookup (get_restricted_env osEnv wd) "LANG"
      = some ((envLookup osEnv "LANG").getD "en_US.UTF-8") ∧
    envLookup (get_restricted_env osEnv wd) "LC_ALL"
      = some ((envLookup osEnv "LC_ALL").getD "en_US.UTF-8") ∧
    envLookup (get_restricted_env osEnv wd) "VIRTUAL_ENV"
      = envLookup osEnv "VIRTUAL_ENV" ∧
    envLookup (get_restricted_env osEnv wd) "PATH"
      = some (match envLookup osEnv "VIRTUAL_ENV" with
          | some v => v ++ "/bin:" ++ "/usr/bin:/bin:/usr/local/bin"
          | none => "/usr/bin:/bin:/usr/local/bin") ∧
    ∀ k, k ∉ (["PATH", "HOME", "LANG", "LC_ALL", "PWD", "PYTHONPATH",
               "VIRTUAL_ENV"] : List String) →
      envLookup (get_restricted_env osEnv wd) k = none := by
  rcases h : envLookup osEnv "VIRTUAL_ENV" with _ | v
  · rw [get_restricted_env_no_venv osEnv wd h]
    refine ⟨rfl, rfl, rfl, rfl, rfl, rfl, rfl, ?_⟩
    intro k hk
    refine (alookup_eq_none_iff _ _).mpr ?_
    simp only [List.mem_cons, not_or] at hk ⊢
    simp only [List.map_cons, List.map_nil, List.mem_cons, not_or]
    tauto
  · rw [get_restricted_env_venv osEnv wd v h]
    refine ⟨rfl, rfl, rfl, rfl, rfl, rfl, rfl, ?_⟩
    intro k hk
    refine (alookup_eq_none_iff _ _).mpr ?_
    simp only [List.mem_cons, not_or] at hk ⊢
    simp only [List.map_cons, List.map_nil, List.mem_cons, not_or]
    tauto

/-- C4: when neither the extension table nor the shebang line determines a
(nonempty) interpreter, `_get_interpreter` raises SecurityError; when one is
determined but its normalization is not in the allowlist, it raises
SecurityError naming the rejected interpreter and the allowed set; and
`run` propagates any such SecurityError once path validation passes. -/
theorem get_interpreter_rejections (allowed : List String) (script_path : AbsPath)
    (firstLine : Option String) :
    ((detectedInterpreter script_path firstLine = none ∨
        detectedInterpreter script_path firstLine = some "") →
      get_interpreter allowed script_path firstLine
        = .error (.security (noInterpMsg script_path))) ∧
    (∀ i, detectedInterpreter script_path firstLine = some i → i ≠ "" →
      normalizeInterpreter i ∉ allowed →
      get_interpreter allowed script_path firstLine
        = .error (.security (badInterpMsg (normalizeInterpreter i) allowed))) ∧
    (∀ (cfg : ExecConfig) (script : ScriptFile) (arguments : List String)
        (working_dir : AbsPath) (timeout? : Option Int) (behavior : ProcBehavior)
        (e : SkillErr),
      script.path = script_path → script.firstLine = firstLine →
      cfg.allowed_interpreters = allowed →
      validate_script_path script_path working_dir = .ok () →
      get_interpreter allowed script_path firstLine = .error e →
      run cfg script arguments working_dir timeout? behavior = .error e) := by
  refine ⟨?_, ?_, ?_⟩
  · intro hd
    rcases hd with hd | hd
    · rw [get_interpreter, hd]
    · rw [get_interpreter, hd]
      rfl
  · intro i hd hne hnin
    rw [get_interpreter, hd]
    simp [hne, hnin]
  · intro cfg script arguments working_dir timeout? behavior e hp hl ha hv hi
    unfold run
    rw [hp, hv]
    all_goals try simp only []
    rw [ha, hl, hi]
    all_goals try rfl

/-- C3: the bash tool executes (delegates) the command if and only if a
skill is active, its `allowed-tools` declares Bash patterns, and the
command's leading token is one of the declared prefixes; what executes is
the original command; and in the mismatch case the rejection message names
the disallowed command and lists every allowed command. -/
theorem bash_tool_scoping (active_skill : Option LoadedSkill) (command : String) :
    ((∃ c, bashTool active_skill command = .exec c) ↔
      (∃ sk, active_skill = some sk ∧
        ∃ base rest, pySplitWs (pyStrip command) = base :: rest ∧
          base ∈ bashAllowed (sk.allowed_tools.getD ""))) ∧
    (∀ c, bashTool active_skill command = .exec c → c = command) ∧
    (∀ sk base rest, active_skill = some sk →
      pySplitWs (pyStrip command) = base :: rest →
      ¬ (bashAllowed (sk.allowed_tools.getD "")).isEmpty →
      base ∉ bashAllowed (sk.allowed_tools.getD "") →
      bashTool active_skill command
          = .reject (notAllowedMsg sk.name base (bashAllowed (sk.allowed_tools.getD ""))) ∧
        strContains
          (notAllowedMsg sk.name base (bashAllowed (sk.allowed_tools.getD ""))) base
          = true ∧
        ∀ a ∈ bashAllowed (sk.allowed_tools.getD ""),
          strContains
            (notAllowedMsg sk.name base (bashAllowed (sk.allowed_tools.getD ""))) a
            = true) := by
  rcases active_skill with _ | sk
  · refine ⟨⟨?_, ?_⟩, ?_, ?_⟩
    · rintro ⟨c, hc⟩; simp [bashTool] at hc
    · rintro ⟨sk, hsk, -⟩; cases hsk
    · intro c hc; simp [bashTool] at hc
    · intro sk base rest hsk; cases hsk
  · rcases hat : sk.allowed_tools with _ | at_
    · have hv : bashTool (some sk) command
          = .reject ("Error: Skill '" ++ sk.name ++ "' does not declare any allowed-tools.") := by
        rw [bashTool]
        simp only []
        rw [hat]
      refine ⟨⟨?_, ?_⟩, ?_, ?_⟩
      · rintro ⟨c, hc⟩; rw [hv] at hc; cases hc
      · rintro ⟨sk', hsk', base, rest, hsp, hb⟩
        cases hsk'
        rw [hat] at hb
        simp [bashAllowed, scanBashAux] at hb
      · intro c hc; rw [hv] at hc; cases hc
      · intro sk' base rest hsk' hsp hne hnb
        cases hsk'
        rw [hat] at hne
        simp [bashAllowed, scanBashAux] at hne
    · by_cases hat0 : at_ == ""
      · have he : at_ = "" := by simpa using hat0
        have hv : bashTool (some sk) command
            = .reject ("Error: Skill '" ++ sk.name ++ "' does not declare any allowed-tools.") := by
          rw [bashTool]
          simp only []
          rw [hat, he]
          rfl
        refine ⟨⟨?_, ?_⟩, ?_, ?_⟩
        · rintro ⟨c, hc⟩; rw [hv] at hc; cases hc
        · rintro ⟨sk', hsk', base, rest, hsp, hb⟩
          cases hsk'
          rw [hat, he] at hb
          simp [bashAllowed, scanBashAux] at hb
        · intro c hc; rw [hv] at hc; cases hc
        · intro sk' base rest hsk' hsp hne hnb
          cases hsk'
          rw [hat, he] at hne
          simp [bashAllowed, scanBashAux] at hne
      · by_cases hae : (bashAllowed at_).isEmpty
        · have hv : bashTool (some sk) command
              = .reject ("Error: Skill '" ++ sk.name ++ "' does not allow any bash commands.") := by
            rw [bashTool]
            simp only []
            rw [hat]
            simp only []
            rw [if_neg (by simpa using hat0), if_pos hae]
          have hlist : bashAllowed at_ = [] := List.isEmpty_iff.mp hae
          refine ⟨⟨?_, ?_⟩, ?_, ?_⟩
          · rintro ⟨c, hc⟩; rw [hv] at hc; cases hc
          · rintro ⟨sk', hsk', base, rest, hsp, hb⟩
            cases hsk'
            rw [hat] at hb
            simp only [Option.getD] at hb
            rw [hlist] at hb
            cases hb
          · intro c hc; rw [hv] at hc; cases hc
          · intro sk' base rest hsk' hsp hne hnb
            cases hsk'
            rw [hat] at hne
            simp only [Option.getD] at hne
            exact absurd hae hne
        · rcases hsp : pySplitWs (pyStrip command) with _ | ⟨base, rest⟩
          · have hv : bashTool (some sk) command = .reject "Error: Empty command" := by
              rw [bashTool]
              simp only []
              rw [hat]
              simp only []
              rw [if_neg (by simpa using hat0), if_neg hae, hsp]
            refine ⟨⟨?_, ?_⟩, ?_, ?_⟩
            · rintro ⟨c, hc⟩; rw [hv] at hc; cases hc
            · rintro ⟨sk', hsk', base, rest, hsp', hb⟩
              cases hsk'
              simp at hsp'
            · intro c hc; rw [hv] at hc; cases hc
            · intro sk' base rest hsk' hsp' hne hnb
              cases hsk'
              simp at hsp'
          · by_cases hb : base ∈ bashAllowed at_
            · have hv : bashTool (some sk) command = .exec command := by
                rw [bashTool]
                simp only []
                rw [hat]
                simp only []
                rw [if_neg (by simpa using hat0), if_neg hae, hsp]
                simp only []
                rw [if_pos hb]
              refine ⟨⟨?_, ?_⟩, ?_, ?_⟩
              · intro _
                exact ⟨sk, rfl, base, rest, rfl, by rw [hat]; exact hb⟩
              · intro _
                exact ⟨command, hv⟩
              · intro c hc
                rw [hv] at hc
                cases hc
                rfl
              · intro sk' base' rest' hsk' hsp' hne hnb
                cases hsk'
                injection hsp' with hb' hr'
                subst hb'
                rw [hat] at hnb
                exact absurd hb hnb
            · have hv : bashTool (some sk) command
                  = .reject (notAllowedMsg sk.name base (bashAllowed at_)) := by
                rw [bashTool]
                simp only []
                rw [hat]
                simp only []
                rw [if_neg (by simpa using hat0), if_neg hae, hsp]
                simp only []
                rw [if_neg hb]
              have hmsg1 : strContains (notAllowedMsg sk.name base (bashAllowed at_)) base
                  = true := by
                rw [strContains, isSubrun_iff_infix]
                refine ⟨"Error: Command '".data,
                  ("' is not allowed by skill '" ++ sk.name ++ "'. Allowed commands: "
                    ++ strJoin ", " (sortedUnique (bashAllowed at_))).data, ?_⟩
                simp [notAllowedMsg, String.data_append, List.append_assoc]
              have hmsg2 : ∀ a ∈ bashAllowed at_,
                  strContains (notAllowedMsg sk.name base (bashAllowed at_)) a = true := by
                intro a ha
                rw [strContains, isSubrun_iff_infix]
                have h1 : a.data <:+: (strJoin ", " (sortedUnique (bashAllowed at_))).data :=
                  strJoin_data_infix _ _ _ ((mem_sortedUnique _ _).mpr ha)
                have h2 : (strJoin ", " (sortedUnique (bashAllowed at_))).data <:+:
                    (notAllowedMsg sk.name base (bashAllowed at_)).data := by
                  refine ⟨("Error: Command '" ++ base ++ "' is not allowed by skill '"
                    ++ sk.name ++ "'. Allowed commands: ").data, [], ?_⟩
                  simp [notAllowedMsg, String.data_append, List.append_assoc]
                exact h1.trans h2
              refine ⟨⟨?_, ?_⟩, ?_, ?_⟩
              · rintro ⟨c, hc⟩; rw [hv] at hc; cases hc
              · rintro ⟨sk', hsk', base', rest', hsp', hb'⟩
                cases hsk'
                injection hsp' with hb2 hr2
                subst hb2
                rw [hat] at hb'
                exact absurd hb' hb
              · intro c hc; rw [hv] at hc; cases hc
              · intro sk' base' rest' hsk' hsp' hne hnb
                cases hsk'
                injection hsp' with hb2 hr2
                subst hb2
                rw [hat]
                simp only [Option.getD]
                exact ⟨hv, hmsg1, hmsg2⟩

/-- C6: for a well-formed definition file with nonempty trimmed name and
description, `read_skill` with the eager flag off yields state DISCOVERED
and no instructions, and with it on yields state ACTIVATED and instructions
equal to the file body (the text after the closing `---`) trimmed. -/
theorem read_skill_progressive (yaml : String → Except String YamlVal)
    (skill_dir : AbsPath) (c p0 p1 p2 : String) (md : List (String × YamlVal))
    (name description : String)
    (h0 : strStartsWith c "---" = true)
    (h1 : pySplitMax2 c "---" = [p0, p1, p2])
    (h2 : yaml p1 = .ok (.map md))
    (hn : alookup (coerceMetadata md) "name" = some (.str name))
    (hd : alookup (coerceMetadata md) "description" = some (.str description))
    (hn2 : ¬ pyStrip name = "") (hd2 : ¬ pyStrip description = "") :
    (∃ sk, read_skill yaml skill_dir (some c) false = .ok sk ∧
      sk.state = .DISCOVERED ∧ sk.instructions = none) ∧
    (∃ sk, read_skill yaml skill_dir (some c) true = .ok sk ∧
      sk.state = .ACTIVATED ∧ sk.instructions = some (pyStrip p2)) := by
  have hpf : parse_frontmatter yaml c = .ok (coerceMetadata md, pyStrip p2) := by
    rw [parse_frontmatter]
    rw [if_neg (by simp [h0])]
    rw [h1]
    simp only []
    rw [h2]
  have hrs : ∀ li : Bool, read_skill yaml skill_dir (some c) li
      = .ok { name := pyStrip name, description := pyStrip description,
              path := skill_dir,
              state := if li then .ACTIVATED else .DISCOVERED,
              license := yamlStr? (alookup (coerceMetadata md) "license"),
              compatibility := yamlStr? (alookup (coerceMetadata md) "compatibility"),
              allowed_tools := yamlStr? (alookup (coerceMetadata md) "allowed-tools"),
              metadata := metaStrings (alookup (coerceMetadata md) "metadata"),
              instructions := if li then some (pyStrip p2) else none } := by
    intro li
    rw [read_skill]
    rw [hpf]
    all_goals try simp only []
    rw [hn, hd]
    simp [hn2, hd2]
  exact ⟨⟨_, hrs false, rfl, rfl⟩, ⟨_, hrs true, rfl, rfl⟩⟩

theorem read_skill_progressive_witness :
    (∃ sk, read_skill
        (fun s => if s == "\nname: pdf\ndescription: Extract text\n" then
            .ok (.map [("name", .str "pdf"), ("description", .str "Extract text")])
          else .error "YAML")
        ["skills", "pdf"]
        (some "---\nname: pdf\ndescription: Extract text\n---\n# PDF\nBody text\n")
        false = .ok sk ∧
      sk.state = .DISCOVERED ∧ sk.instructions = none) ∧
    (∃ sk, read_skill
        (fun s => if s == "\nname: pdf\ndescription: Extract text\n" then
            .ok (.map [("name", .str "pdf"), ("description", .str "Extract text")])
          else .error "YAML")
        ["skills", "pdf"]
        (some "---\nname: pdf\ndescription: Extract text\n---\n# PDF\nBody text\n")
        true = .ok sk ∧
      sk.state = .ACTIVATED ∧ sk.instructions = some (pyStrip "\n# PDF\nBody text\n")) :=
  read_skill_progressive
    (fun s => if s == "\nname: pdf\ndescription: Extract text\n" then
        .ok (.map [("name", .str "pdf"), ("description", .str "Extract text")])
      else .error "YAML")
    ["skills", "pdf"]
    "---\nname: pdf\ndescription: Extract text\n---\n# PDF\nBody text\n"
    "" "\nname: pdf\ndescription: Extract text\n" "\n# PDF\nBody text\n"
    [("name", .str "pdf"), ("description", .str "Extract text")]
    "pdf" "Extract text"
    (by rfl) (by rfl) (by rfl) (by rfl) (by rfl) (by decide) (by decide)

/-- C7: when validation is off (or every candidate is valid), the first
discovered skill with a given name wins: the mapping holds, for every name,
exactly the first successfully-read candidate carrying it; the returned
discovered-name list is exactly the mapping's key sequence; and no name is
retained twice. -/
theorem discover_first_wins (yaml : String → Except String YamlVal)
    (validate_on_load : Bool) (m : ManagerState) (cands : List CandDir)
    (hv : validate_on_load = false ∨ ∀ cd ∈ cands, cd.validationErrors = []) :
    (∀ n, alookup (discover yaml validate_on_load m cands).1.skills n
        = (cands.filterMap (candSkill yaml validate_on_load)).find?
            (fun sk => sk.name == n)) ∧
    (discover yaml validate_on_load m cands).2
        = (discover yaml validate_on_load m cands).1.skills.map (·.1) ∧
    ((discover yaml validate_on_load m cands).1.skills.map (·.1)).Nodup := by
  refine ⟨?_, ?_, ?_⟩
  · intro n
    have h := discoverFold_alookup (cands.map (candSkill yaml validate_on_load)) [] [] n
    simpa [discover, alookup, List.filterMap_map, Function.comp] using h
  · have h := discoverFold_names (cands.map (candSkill yaml validate_on_load)) [] []
      (by simp)
    simpa [discover] using h
  · have h := discoverFold_nodup (cands.map (candSkill yaml validate_on_load)) [] []
      (by simp)
    simpa [discover] using h

theorem discover_first_wins_witness :
    (∀ n, alookup (discover
        (fun s => if s == "\nname: dup\ndescription: one\n" then
            .ok (.map [("name", .str "dup"), ("description", .str "one")])
          else if s == "\nname: dup\ndescription: two\n" then
            .ok (.map [("name", .str "dup"), ("description", .str "two")])
          else .error "YAML")
        false { skills := [], active := none }
        [{ path := ["r1", "a"], content := some "---\nname: dup\ndescription: one\n---\nA",
           validationErrors := [] },
         { path := ["r2", "b"], content := some "---\nname: dup\ndescription: two\n---\nB",
           validationErrors := [] }]).1.skills n
      = ([{ path := ["r1", "a"], content := some "---\nname: dup\ndescription: one\n---\nA",
            validationErrors := [] },
          { path := ["r2", "b"], content := some "---\nname: dup\ndescription: two\n---\nB",
            validationErrors := [] }].filterMap (candSkill
        (fun s => if s == "\nname: dup\ndescription: one\n" then
            .ok (.map [("name", .str "dup"), ("description", .str "one")])
          else if s == "\nname: dup\ndescription: two\n" then
            .ok (.map [("name", .str "dup"), ("description", .str "two")])
          else .error "YAML") false)).find? (fun sk => sk.name == n)) ∧
    (discover
        (fun s => if s == "\nname: dup\ndescription: one\n" then
            .ok (.map [("name", .str "dup"), ("description", .str "one")])
          else if s == "\nname: dup\ndescription: two\n" then
            .ok (.map [("name", .str "dup"), ("description", .str "two")])
          else .error "YAML")
        false { skills := [], active := none }
        [{ path := ["r1", "a"], content := some "---\nname: dup\ndescription: one\n---\nA",
           validationErrors := [] },
         { path := ["r2", "b"], content := some "---\nname: dup\ndescription: two\n---\nB",
           validationErrors := [] }]).2
      = (discover
        (fun s => if s == "\nname: dup\ndescription: one\n" then
            .ok (.map [("name", .str "dup"), ("description", .str "one")])
          else if s == "\nname: dup\ndescription: two\n" then
            .ok (.map [("name", .str "dup"), ("description", .str "two")])
          else .error "YAML")
        false { skills := [], active := none }
        [{ path := ["r1", "a"], content := some "---\nname: dup\ndescription: one\n---\nA",
           validationErrors := [] },
         { path := ["r2", "b"], content := some "---\nname: dup\ndescription: two\n---\nB",
           validationErrors := [] }]).1.skills.map (·.1) ∧
    ((discover
        (fun s => if s == "\nname: dup\ndescription: one\n" then
            .ok (.map [("name", .str "dup"), ("description", .str "one")])
          else if s == "\nname: dup\ndescription: two\n" then
            .ok (.map [("name", .str "dup"), ("description", .str "two")])
          else .error "YAML")
        false { skills := [], active := none }
        [{ path := ["r1", "a"], content := some "---\nname: dup\ndescription: one\n---\nA",
           validationErrors := [] },
         { path := ["r2", "b"], content := some "---\nname: dup\ndescription: two\n---\nB",
           validationErrors := [] }]).1.skills.map (·.1)).Nodup :=
  discover_first_wins
    (fun s => if s == "\nname: dup\ndescription: one\n" then
        .ok (.map [("name", .str "dup"), ("description", .str "one")])
      else if s == "\nname: dup\ndescription: two\n" then
        .ok (.map [("name", .str "dup"), ("description", .str "two")])
      else .error "YAML")
    false { skills := [], active := none }
    [{ path := ["r1", "a"], content := some "---\nname: dup\ndescription: one\n---\nA",
       validationErrors := [] },
     { path := ["r2", "b"], content := some "---\nname: dup\ndescription: two\n---\nB",
       validationErrors := [] }]
    (Or.inl rfl)

/-- C9: activating a known skill leaves the mapping's key sequence intact,
leaves every other entry untouched, and the entry under the activated name
keeps its name, description, path, license, compatibility, allowed_tools
and metadata. -/
theorem activate_frame (m : ManagerState) (name : String)
    (readInstr : Except SkillErr String) (sk : LoadedSkill)
    (h : alookup m.skills name = some sk) :
    ((activate m name readInstr).1.skills.map (·.1) = m.skills.map (·.1)) ∧
    (∀ k, k ≠ name →
      alookup (activate m name readInstr).1.skills k = alookup m.skills k) ∧
    (∃ sk', alookup (activate m name readInstr).1.skills name = some sk' ∧
      sk'.name = sk.name ∧ sk'.description = sk.description ∧ sk'.path = sk.path ∧
      sk'.license = sk.license ∧ sk'.compatibility = sk.compatibility ∧
      sk'.allowed_tools = sk.allowed_tools ∧ sk'.metadata = sk.metadata) := by
  by_cases hs : sk.state = SkillState.ACTIVATED
  · have hv : (activate m name readInstr).1 = { m with active := some name } := by
      rw [activate, h]
      simp [hs]
    rw [hv]
    exact ⟨rfl, fun k _ => rfl, ⟨sk, h, rfl, rfl, rfl, rfl, rfl, rfl, rfl⟩⟩
  · cases readInstr with
    | error e =>
      have hv : (activate m name (Except.error e)).1 = m := by
        rw [activate, h]
        simp [hs]
      rw [hv]
      exact ⟨rfl, fun k _ => rfl, ⟨sk, h, rfl, rfl, rfl, rfl, rfl, rfl, rfl⟩⟩
    | ok instructions =>
      have hv : (activate m name (Except.ok instructions)).1
          = { skills := m.skills.map (fun p => if p.1 == name then (p.1, { sk with instructions := some instructions, state := SkillState.ACTIVATED }) else p), active := some name } := by
        rw [activate, h]
        simp [hs]
      rw [hv]
      refine ⟨map_fst_replace _ _ _, fun k hk => alookup_replace_ne _ _ _ _ hk, ?_⟩
      exact ⟨_, alookup_replace_self m.skills name sk _ h,
        rfl, rfl, rfl, rfl, rfl, rfl, rfl⟩

theorem activate_frame_witness :
    ((activate { skills := [("pdf", { name := "pdf", description := "d", path := ["p"] })], active := none } "pdf" (.ok "body")).1.skills.map (·.1)
      = ([("pdf", { name := "pdf", description := "d", path := ["p"] })]
          : List (String × LoadedSkill)).map (·.1)) ∧
    (∀ k, k ≠ "pdf" →
      alookup (activate { skills := [("pdf", { name := "pdf", description := "d", path := ["p"] })], active := none } "pdf" (.ok "body")).1.skills k
        = alookup [("pdf", { name := "pdf", description := "d", path := ["p"] })] k) ∧
    (∃ sk', alookup (activate { skills := [("pdf", { name := "pdf", description := "d", path := ["p"] })], active := none } "pdf" (.ok "body")).1.skills "pdf"
        = some sk' ∧
      sk'.name = ({ name := "pdf", description := "d", path := ["p"] } : LoadedSkill).name ∧
      sk'.description = ({ name := "pdf", description := "d", path := ["p"] } : LoadedSkill).description ∧
      sk'.path = ({ name := "pdf", description := "d", path := ["p"] } : LoadedSkill).path ∧
      sk'.license = ({ name := "pdf", description := "d", path := ["p"] } : LoadedSkill).license ∧
      sk'.compatibility = ({ name := "pdf", description := "d", path := ["p"] } : LoadedSkill).compatibility ∧
      sk'.allowed_tools = ({ name := "pdf", description := "d", path := ["p"] } : LoadedSkill).allowed_tools ∧
      sk'.metadata = ({ name := "pdf", description := "d", path := ["p"] } : LoadedSkill).metadata) :=
  activate_frame
    { skills := [("pdf", { name := "pdf", description := "d", path := ["p"] })],
      active := none }
    "pdf" (.ok "body") { name := "pdf", description := "d", path := ["p"] } rfl

/-- C10: a re-discovery never resets the active pointer; afterwards the
active skill lookup yields none when the previously active name was not
rediscovered, and yields the freshly discovered entry — whose state is
DISCOVERED, not ACTIVATED — when it was. -/
theorem discover_keeps_active_pointer (yaml : String → Except String YamlVal)
    (validate_on_load : Bool) (m : ManagerState) (cands : List CandDir)
    (nm : String) (ha : m.active = some nm) (hne : nm ≠ "") :
    ((discover yaml validate_on_load m cands).1.active = some nm) ∧
    (alookup (discover yaml validate_on_load m cands).1.skills nm = none →
      get_active_skill (discover yaml validate_on_load m cands).1 = none) ∧
    (∀ sk, alookup (discover yaml validate_on_load m cands).1.skills nm = some sk →
      get_active_skill (discover yaml validate_on_load m cands).1 = some sk ∧
      sk.state = SkillState.DISCOVERED) := by
  have hact : (discover yaml validate_on_load m cands).1.active = some nm := by
    simp [discover, ha]
  refine ⟨hact, ?_, ?_⟩
  · intro hl
    rw [get_active_skill, hact]
    simp [hne, hl]
  · intro sk hl
    constructor
    · rw [get_active_skill, hact]
      simp [hne, hl]
    · have h2 := discoverFold_alookup (cands.map (candSkill yaml validate_on_load)) [] [] nm
      have h3 : alookup (discover yaml validate_on_load m cands).1.skills nm
          = ((cands.map (candSkill yaml validate_on_load)).filterMap id).find?
              (fun s => s.name == nm) := by
        simpa [discover, alookup] using h2
      rw [h3] at hl
      have h5 : sk ∈ (cands.map (candSkill yaml validate_on_load)).filterMap id :=
        List.mem_of_find?_eq_some hl
      rw [List.filterMap_map] at h5
      obtain ⟨cd, hcd, hsk⟩ := List.mem_filterMap.mp h5
      exact candSkill_state yaml validate_on_load cd sk (by simpa [Function.comp] using hsk)

theorem discover_keeps_active_pointer_witness :
    ((discover
        (fun s => if s == "\nname: pdf\ndescription: d\n" then
            .ok (.map [("name", .str "pdf"), ("description", .str "d")])
          else .error "YAML")
        false { skills := [], active := some "pdf" }
        [{ path := ["r", "pdf"], content := some "---\nname: pdf\ndescription: d\n---\nB",
           validationErrors := [] }]).1.active = some "pdf") ∧
    (alookup (discover
        (fun s => if s == "\nname: pdf\ndescription: d\n" then
            .ok (.map [("name", .str "pdf"), ("description", .str "d")])
          else .error "YAML")
        false { skills := [], active := some "pdf" }
        [{ path := ["r", "pdf"], content := some "---\nname: pdf\ndescription: d\n---\nB",
           validationErrors := [] }]).1.skills "pdf" = none →
      get_active_skill (discover
        (fun s => if s == "\nname: pdf\ndescription: d\n" then
            .ok (.map [("name", .str "pdf"), ("description", .str "d")])
          else .error "YAML")
        false { skills := [], active := some "pdf" }
        [{ path := ["r", "pdf"], content := some "---\nname: pdf\ndescription: d\n---\nB",
           validationErrors := [] }]).1 = none) ∧
    (∀ sk, alookup (discover
        (fun s => if s == "\nname: pdf\ndescription: d\n" then
            .ok (.map [("name", .str "pdf"), ("description", .str "d")])
          else .error "YAML")
        false { skills := [], active := some "pdf" }
        [{ path := ["r", "pdf"], content := some "---\nname: pdf\ndescription: d\n---\nB",
           validationErrors := [] }]).1.skills "pdf" = some sk →
      get_active_skill (discover
        (fun s => if s == "\nname: pdf\ndescription: d\n" then
            .ok (.map [("name", .str "pdf"), ("description", .str "d")])
          else .error "YAML")
        false { skills := [], active := some "pdf" }
        [{ path := ["r", "pdf"], content := some "---\nname: pdf\ndescription: d\n---\nB",
           validationErrors := [] }]).1 = some sk ∧
      sk.state = SkillState.DISCOVERED) :=
  discover_keeps_active_pointer
    (fun s => if s == "\nname: pdf\ndescription: d\n" then
        .ok (.map [("name", .str "pdf"), ("description", .str "d")])
      else .error "YAML")
    false { skills := [], active := some "pdf" }
    [{ path := ["r", "pdf"], content := some "---\nname: pdf\ndescription: d\n---\nB",
       validationErrors := [] }]
    "pdf" rfl (by decide)
